import Mathlib

/-!
Verification of the DiscordMathBot plugin modules against their
natural-language specification.  The definitions below are shallow
embeddings of the Python sources:

* src/plugins/discord_log.py  (log relay: DiscordHandler)
* src/bot/privileges.py       (privilege store)
* src/util/restart.py         (restart trigger)
-/

set_option maxRecDepth 4096

/- ### Log relay: src/plugins/discord_log.py -/

/-- Modelled from the spec: the codeblock wrapping produced by
util.discord.format applied to the pattern with a block conversion and
language py (the function itself is outside src/).  It renders a log
line inside a fixed-width-text delimiter for chat display. -/
def codeblock (text : String) : String :=
  "```py\n" ++ text ++ "```"

/-- An outbound emission of the forwarding task: either a chat message,
carried as the list of log lines whose wrapped renderings were
concatenated into its content, or a file attachment carrying a single
raw log line. -/
inductive Out where
  | msg (lines : List String) : Out
  | file (filename : String) (line : String) : Out
deriving DecidableEq, Repr

/-- The content string of a message buffer: the concatenation of the
codeblock-wrapped renderings of the buffered lines.  This is the string
held in the local variable message of DiscordHandler.log_discord. -/
def msgContent : List String → String
  | [] => ""
  | t :: rest => codeblock t ++ msgContent rest

/-- The flush of the current buffer in log_discord: the message is sent
only when its content is non-empty (source: if len(message) > 0). -/
def flushBuf (buf : List String) : List Out :=
  if 0 < (msgContent buf).length then [Out.msg buf] else []

/-- Embedding of the loop of DiscordHandler.log_discord
(src/plugins/discord_log.py lines 40 to 55).  The first argument is the
pending queue in FIFO order (queue_pop removes from the front under the
lock), the second is the list of lines currently buffered in message.
Returns the sequence of outbound emissions. -/
def logDiscordGo : List String → List String → List Out
  | [], buf => flushBuf buf
  | text :: rest, buf =>
    if 2000 < (msgContent buf).length + (codeblock text).length then
      flushBuf buf ++
        (if 2000 < (codeblock text).length then
          Out.file "log.txt" text :: logDiscordGo rest []
        else
          logDiscordGo rest [text])
    else
      logDiscordGo rest (buf ++ [text])

/-- DiscordHandler.log_discord run on a queue, starting from the empty
message buffer. -/
def log_discord (queue : List String) : List Out :=
  logDiscordGo queue []

/-- The log lines carried by a sequence of emissions, in emission
order: a message contributes its buffered lines, a file attachment its
single line. -/
def outLines : List Out → List String
  | [] => []
  | Out.msg ls :: rest => ls ++ outLines rest
  | Out.file _ t :: rest => t :: outLines rest

/-- The observable state of one DiscordHandler sink: the pending queue
of formatted lines, and the number of forwarding tasks that have been
spawned with asyncio.create_task and have not yet completed. -/
structure SinkState where
  queue : List String
  active : Nat
deriving DecidableEq, Repr

/-- Embedding of the lock-guarded tail of DiscordHandler.emit
(src/plugins/discord_log.py lines 90 to 95): the formatted line is
appended to the queue in both branches, and a new forwarding task is
spawned exactly when the queue was observed empty before the append. -/
def enqueueSpawn (s : SinkState) (t : String) : SinkState :=
  if s.queue.isEmpty then SinkState.mk (s.queue ++ [t]) (s.active + 1)
  else SinkState.mk (s.queue ++ [t]) s.active

/-- One interleaving step of a sink instance: an emission appends (and
possibly spawns), an active forwarding task pops the oldest line from
the queue (DiscordHandler.queue_pop, under the lock), or an active
forwarding task observes the empty queue, sends its final buffer and
completes. -/
inductive SinkStep : SinkState → SinkState → Prop where
  | emit (s : SinkState) (t : String) : SinkStep s (enqueueSpawn s t)
  | pop (s : SinkState) (t : String) (rest : List String) :
      s.queue = t :: rest → 1 ≤ s.active →
      SinkStep s (SinkState.mk rest s.active)
  | finish (s : SinkState) :
      s.queue = [] → 1 ≤ s.active →
      SinkStep s (SinkState.mk [] (s.active - 1))

/-- States of a sink instance reachable from the initial state (empty
queue, no forwarding task). -/
inductive SinkReachable : SinkState → Prop where
  | init : SinkReachable (SinkState.mk [] 0)
  | step {s s2 : SinkState} :
      SinkReachable s → SinkStep s s2 → SinkReachable s2

/-- A log record as seen by DiscordHandler.emit: its numeric severity
level, whether it carries the no_discord suppression marker, and the
text produced for it by self.format. -/
structure Record where
  level : Nat
  no_discord : Bool
  text : String
deriving DecidableEq, Repr

/-- The operating conditions read by DiscordHandler.emit: whether
asyncio.get_event_loop() succeeds, whether that loop is closed, the
configured channel entry, whether the client connection is closed, and
whether a log_discord frame is on the current call stack. -/
structure EmitEnv where
  loop_available : Bool
  loop_closed : Bool
  channel : Option String
  client_closed : Bool
  inside_log_discord : Bool
deriving DecidableEq, Repr

/-- Reading a decimal digit string left to right, accumulating its
value; any non-digit character makes the whole string malformed. -/
def parseDigitsAux : List Char → Nat → Option Nat
  | [], acc => some acc
  | c :: rest, acc =>
    if c.isDigit then parseDigitsAux rest (acc * 10 + (c.toNat - 48))
    else none

/-- Modelled from the spec: parsing the configured numeric channel
identifier string as an integer, as the int() constructor of the host
language does; a malformed identifier yields no value.  Modelled for
the common shape of an optional minus sign followed by a non-empty run
of decimal digits. -/
def parseChannel (s : String) : Option Int :=
  match s.data with
  | [] => none
  | c :: rest =>
    if c = Char.ofNat 45 then
      match rest with
      | [] => none
      | _ => (parseDigitsAux rest 0).map (fun n => -(n : Int))
    else (parseDigitsAux (c :: rest) 0).map (fun n => (n : Int))

/-- The outcome of one call to DiscordHandler.emit: either the record
is silently dropped, or its formatted text is enqueued. -/
inductive EmitResult where
  | dropped : EmitResult
  | enqueued (text : String) : EmitResult
deriving DecidableEq, Repr

/-- Embedding of DiscordHandler.emit (src/plugins/discord_log.py lines
59 to 95), guard by guard in source order: the no_discord marker, the
event-loop availability and closedness, the missing channel entry, the
unparsable channel entry, the closed client, and the re-entrancy check
on the call stack.  Only when every guard passes is the formatted text
enqueued. -/
def emit (env : EmitEnv) (r : Record) : EmitResult :=
  if r.no_discord then EmitResult.dropped
  else if !env.loop_available then EmitResult.dropped
  else if env.loop_closed then EmitResult.dropped
  else
    match env.channel with
    | none => EmitResult.dropped
    | some ch =>
      match parseChannel ch with
      | none => EmitResult.dropped
      | some _ =>
        if env.client_closed then EmitResult.dropped
        else if env.inside_log_discord then EmitResult.dropped
        else EmitResult.enqueued r.text

/-- DiscordHandler.emit acting on the sink state: a dropped record
leaves the state untouched, an enqueued text goes through the
lock-guarded append of enqueueSpawn. -/
def emitFull (env : EmitEnv) (r : Record) (s : SinkState) : SinkState :=
  match emit env r with
  | EmitResult.dropped => s
  | EmitResult.enqueued t => enqueueSpawn s t

/-- The numeric value of the ERROR severity of the host logging
system. -/
def ERROR_LEVEL : Nat := 40

/-- The threshold the handler is installed with: init constructs
DiscordHandler(logging.ERROR) (src/plugins/discord_log.py line 102). -/
def installedLevel : Nat := ERROR_LEVEL

/-- Modelled from the spec: the host logging system delivers a record
to an installed handler, invoking emit, only when the record severity
is at least the handler threshold level. -/
def handlerDelivers (handlerLevel recordLevel : Nat) : Bool :=
  decide (handlerLevel ≤ recordLevel)

/-- One record flowing through the installed handler: delivered to emit
only when its severity passes the installed threshold, otherwise the
sink state is untouched. -/
def processRecord (env : EmitEnv) (r : Record) (s : SinkState) : SinkState :=
  if handlerDelivers installedLevel r.level then emitFull env r s else s

/- ### Privilege store: src/bot/privileges.py -/

/-- The stored configuration of the privilege store: for each privilege
name, the optional user-id list and the optional role-id list (the two
configuration entries of the name in the key-value store, None when
unset). -/
structure Conf where
  users : String → Option (List Nat)
  roles : String → Option (List Nat)

/-- Truthiness of an optional list in the host language: None and the
empty list are falsy, a non-empty list is truthy. -/
def truthy : Option (List Nat) → Bool
  | none => false
  | some l => !l.isEmpty

/-- The value of the expression conf entry or FrozenList(): the stored
list when truthy, otherwise the empty list. -/
def pyOrEmpty : Option (List Nat) → List Nat
  | none => []
  | some l => if l.isEmpty then [] else l

/-- Pointwise update of one name in a configuration map. -/
def updateFn (f : String → Option (List Nat)) (p : String)
    (v : Option (List Nat)) : String → Option (List Nat) :=
  fun q => if q = p then v else f q

/-- Writing the user-list entry of a privilege name. -/
def setUsers (c : Conf) (p : String) (v : Option (List Nat)) : Conf :=
  Conf.mk (updateFn c.users p v) c.roles

/-- Writing the role-list entry of a privilege name. -/
def setRoles (c : Conf) (p : String) (v : Option (List Nat)) : Conf :=
  Conf.mk c.users (updateFn c.roles p v)

/-- Embedding of priv_exists (src/bot/privileges.py lines 74 to 75): a
privilege set exists when either stored entry is non-null. -/
def priv_exists (c : Conf) (priv : String) : Bool :=
  (c.users priv).isSome || (c.roles priv).isSome

/-- The user-facing errors raised by the privilege commands
(UserError messages, src/bot/privileges.py). -/
inductive PrivError where
  | doesNotExist (priv : String) : PrivError
  | alreadyExists (priv : String) : PrivError
  | userAlreadyIn (user : Nat) (priv : String) : PrivError
  | roleAlreadyIn (role : Nat) (priv : String) : PrivError
  | userNotIn (user : Nat) (priv : String) : PrivError
  | roleNotIn (role : Nat) (priv : String) : PrivError
deriving DecidableEq, Repr

/-- Embedding of validate_priv (src/bot/privileges.py lines 77 to
79). -/
def validate_priv (c : Conf) (priv : String) : Option PrivError :=
  if priv_exists c priv then none else some (PrivError.doesNotExist priv)

/-- An actor as seen by has_privilege: either a plain user (no guild
role context, e.g. in a direct message) or a guild member carrying its
role ids. -/
inductive Actor where
  | user (id : Nat) : Actor
  | member (id : Nat) (roles : List Nat) : Actor
deriving DecidableEq, Repr

def Actor.id : Actor → Nat
  | Actor.user i => i
  | Actor.member i _ => i

def Actor.isMember : Actor → Bool
  | Actor.user _ => false
  | Actor.member _ _ => true

def Actor.memberRoles : Actor → List Nat
  | Actor.user _ => []
  | Actor.member _ rs => rs

/-- Embedding of has_privilege (src/bot/privileges.py lines 32 to 44):
short-circuit truthiness checks on the stored entries, membership of
the actor id in the user list, and, for guild members only, a scan of
the actor roles against the role list. -/
def has_privilege (c : Conf) (priv : String) (a : Actor) : Bool :=
  let users := c.users priv
  let roles := c.roles priv
  if truthy users && (users.getD []).contains a.id then true
  else if truthy roles && a.isMember then
    a.memberRoles.any fun r => (roles.getD []).contains r
  else false

/-- Embedding of priv_new (src/bot/privileges.py lines 81 to 91).  The
result pairs the raised UserError, if any, with the stored
configuration when the command finishes. -/
def priv_new (c : Conf) (priv : String) : Option PrivError × Conf :=
  if priv_exists c priv then (some (PrivError.alreadyExists priv), c)
  else (none, setRoles (setUsers c priv (some [])) priv (some []))

/-- Embedding of priv_delete (src/bot/privileges.py lines 93 to
102). -/
def priv_delete (c : Conf) (priv : String) : Option PrivError × Conf :=
  match validate_priv c priv with
  | some e => (some e, c)
  | none => (none, setRoles (setUsers c priv none) priv none)

/-- One line of the listing produced by priv_show: a member tagged as
user or role, identified by its id (display-name resolution is done by
the external chat client and does not change which members are
listed). -/
inductive ShowEntry where
  | user (id : Nat) : ShowEntry
  | role (id : Nat) : ShowEntry
deriving DecidableEq, Repr

/-- Embedding of priv_show (src/bot/privileges.py lines 104 to 126):
fails for a missing set, otherwise lists every stored user id then
every stored role id. -/
def priv_show (c : Conf) (priv : String) : Option PrivError × List ShowEntry :=
  match validate_priv c priv with
  | some e => (some e, [])
  | none =>
    (none, (pyOrEmpty (c.users priv)).map ShowEntry.user
      ++ (pyOrEmpty (c.roles priv)).map ShowEntry.role)

/-- Embedding of the priv add user command: the validate_priv check of
the priv_add group (src/bot/privileges.py lines 128 to 132) followed by
priv_add_user (lines 134 to 146). -/
def priv_add_user (c : Conf) (priv : String) (user : Nat) :
    Option PrivError × Conf :=
  match validate_priv c priv with
  | some e => (some e, c)
  | none =>
    let users := pyOrEmpty (c.users priv)
    if user ∈ users then (some (PrivError.userAlreadyIn user priv), c)
    else (none, setUsers c priv (some (users ++ [user])))

/-- Embedding of the priv add role command: the validate_priv check of
the priv_add group followed by priv_add_role (src/bot/privileges.py
lines 148 to 160). -/
def priv_add_role (c : Conf) (priv : String) (role : Nat) :
    Option PrivError × Conf :=
  match validate_priv c priv with
  | some e => (some e, c)
  | none =>
    let roles := pyOrEmpty (c.roles priv)
    if role ∈ roles then (some (PrivError.roleAlreadyIn role priv), c)
    else (none, setRoles c priv (some (roles ++ [role])))

/-- Embedding of the priv remove user command: the validate_priv check
of the priv_remove group (src/bot/privileges.py lines 162 to 166)
followed by priv_remove_user (lines 168 to 182); list remove drops the
first occurrence of the id. -/
def priv_remove_user (c : Conf) (priv : String) (user : Nat) :
    Option PrivError × Conf :=
  match validate_priv c priv with
  | some e => (some e, c)
  | none =>
    let users := pyOrEmpty (c.users priv)
    if user ∉ users then (some (PrivError.userNotIn user priv), c)
    else (none, setUsers c priv (some (users.erase user)))

/-- Embedding of the priv remove role command: the validate_priv check
of the priv_remove group followed by priv_remove_role
(src/bot/privileges.py lines 184 to 198). -/
def priv_remove_role (c : Conf) (priv : String) (role : Nat) :
    Option PrivError × Conf :=
  match validate_priv c priv with
  | some e => (some e, c)
  | none =>
    let roles := pyOrEmpty (c.roles priv)
    if role ∉ roles then (some (PrivError.roleNotIn role priv), c)
    else (none, setRoles c priv (some (roles.erase role)))

/- ### Restart trigger: src/util/restart.py -/

/-- The module-level state of util/restart.py: the will_restart flag,
together with the observable side effects of restart() on the event
loop. -/
structure RestartState where
  will_restart : Bool
  loop_running : Bool
deriving DecidableEq, Repr

/-- Embedding of restart() (src/util/restart.py lines 21 to 26).  In
the source the assignment will_restart = True is made without a global
declaration, so the host language binds a fresh function-local variable
and the module-level flag is left unchanged; the event loop is
stopped. -/
def restart (s : RestartState) : RestartState :=
  RestartState.mk s.will_restart false

/-- What the exit-time hook does when it runs. -/
inductive ExitAction where
  | noop : ExitAction
  | reexec : ExitAction
  | logCritical : ExitAction
deriving DecidableEq, Repr

/-- Embedding of atexit_restart_maybe (src/util/restart.py lines 12 to
19): nothing happens unless the module-level flag is set; when it is
set, the process image is re-executed, and a failing re-execution is
logged as critical (the argument tells whether the re-execution
primitive succeeds). -/
def atexit_restart_maybe (s : RestartState) (execv_ok : Bool) : ExitAction :=
  if s.will_restart then
    if execv_ok then ExitAction.reexec else ExitAction.logCritical
  else ExitAction.noop

/-- The initial module state of util/restart.py: will_restart = False,
event loop running. -/
def initialRestartState : RestartState :=
  RestartState.mk false true

def wQueue1 : List String := List.replicate 201 "x"

def bigLine : String := String.mk (List.replicate 1992 'a')

def wQueue2 : List String := [bigLine]

def wEnv : EmitEnv := EmitEnv.mk true false (some "123") false false

def wRecord : Record := Record.mk 40 false "boom"

def wConf4 : Conf :=
  Conf.mk (fun q => if q = "mods" then some [5] else none)
    (fun q => if q = "mods" then some [9] else none)

def wConf6 : Conf :=
  Conf.mk (fun q => if q = "a" then some [1] else none)
    (fun q => if q = "a" then some [] else none)

def wConf7 : Conf :=
  Conf.mk (fun _ => none) (fun _ => none)

def wConf10u : Conf :=
  Conf.mk (fun _ => none) (fun q => if q = "a" then some [3] else none)

def wConf10r : Conf :=
  Conf.mk (fun q => if q = "a" then some [3] else none) (fun _ => none)

theorem codeblock_length (t : String) :
    (codeblock t).length = t.length + 9 := by
  have h1 : ("```py\n" : String).length = 6 := rfl
  have h2 : ("```" : String).length = 3 := rfl
  simp [codeblock, String.length_append, h1, h2]
  omega

theorem msgContent_append (l1 l2 : List String) :
    msgContent (l1 ++ l2) = msgContent l1 ++ msgContent l2 := by
  induction l1 with
  | nil => simp [msgContent]
  | cons t rest ih => simp [msgContent, ih, String.append_assoc]

theorem msgContent_length_eq_zero {buf : List String}
    (h : (msgContent buf).length = 0) : buf = [] := by
  cases buf with
  | nil => rfl
  | cons t rest =>
    exfalso
    have : (msgContent (t :: rest)).length
        = (codeblock t).length + (msgContent rest).length := by
      simp [msgContent, String.length_append]
    rw [this, codeblock_length] at h
    omega

theorem outLines_append (l1 l2 : List Out) :
    outLines (l1 ++ l2) = outLines l1 ++ outLines l2 := by
  induction l1 with
  | nil => simp [outLines]
  | cons o rest ih =>
    cases o with
    | msg ls => simp [outLines, ih]
    | file f t => simp [outLines, ih]

theorem outLines_flushBuf (buf : List String) :
    outLines (flushBuf buf) = buf := by
  unfold flushBuf
  split
  · simp [outLines]
  · next h =>
    have : buf = [] := msgContent_length_eq_zero (by omega)
    simp [this, outLines]

/-- FIFO preservation: the emissions of the log_discord loop carry the
buffered lines followed by the queued lines, each exactly once, in
order. -/
theorem outLines_logDiscordGo (queue : List String) :
    ∀ buf, outLines (logDiscordGo queue buf) = buf ++ queue := by
  induction queue with
  | nil =>
    intro buf
    simp [logDiscordGo, outLines_flushBuf]
  | cons text rest ih =>
    intro buf
    unfold logDiscordGo
    split
    · split
      · simp [outLines_append, outLines_flushBuf, outLines, ih]
      · simp [outLines_append, outLines_flushBuf, ih]
    · rw [ih (buf ++ [text])]
      simp

/-- Size invariant of the log_discord loop: starting from a buffer whose
content is within the limit, every emitted message has content length at
most 2000. -/
theorem logDiscordGo_msg_le (queue : List String) :
    ∀ buf, (msgContent buf).length ≤ 2000 →
      ∀ ls, Out.msg ls ∈ logDiscordGo queue buf →
        (msgContent ls).length ≤ 2000 := by
  induction queue with
  | nil =>
    intro buf hbuf ls hmem
    unfold logDiscordGo flushBuf at hmem
    split at hmem
    · simp at hmem
      rw [hmem]
      exact hbuf
    · simp at hmem
  | cons text rest ih =>
    intro buf hbuf ls hmem
    unfold logDiscordGo at hmem
    split at hmem
    · rw [List.mem_append] at hmem
      rcases hmem with hflush | htail
      · unfold flushBuf at hflush
        split at hflush
        · simp at hflush
          rw [hflush]
          exact hbuf
        · simp at hflush
      · split at htail
        · next hcb =>
          rcases List.mem_cons.mp htail with habs | htail2
          · exact absurd habs (by simp)
          · exact ih [] (by simp [msgContent]) ls htail2
        · next hcb =>
          refine ih [text] ?_ ls htail
          have : (msgContent [text]).length = (codeblock text).length := by
            simp [msgContent, String.length_append]
          omega
    · next hsmall =>
      refine ih (buf ++ [text]) ?_ ls hmem
      have : (msgContent (buf ++ [text])).length
          = (msgContent buf).length + (codeblock text).length := by
        rw [msgContent_append]
        simp [String.length_append, msgContent]
      omega

/-- Per-line invariant: if every line buffered so far has wrapped length
at most 2000, then every line carried by an emitted message has wrapped
length at most 2000 (oversized lines never enter a message). -/
theorem logDiscordGo_msg_lines_small (queue : List String) :
    ∀ buf, (∀ s ∈ buf, (codeblock s).length ≤ 2000) →
      ∀ ls, Out.msg ls ∈ logDiscordGo queue buf →
        ∀ s ∈ ls, (codeblock s).length ≤ 2000 := by
  induction queue with
  | nil =>
    intro buf hbuf ls hmem
    unfold logDiscordGo flushBuf at hmem
    split at hmem
    · simp at hmem
      rw [hmem]
      exact hbuf
    · simp at hmem
  | cons text rest ih =>
    intro buf hbuf ls hmem
    unfold logDiscordGo at hmem
    split at hmem
    · rw [List.mem_append] at hmem
      rcases hmem with hflush | htail
      · unfold flushBuf at hflush
        split at hflush
        · simp at hflush
          rw [hflush]
          exact hbuf
        · simp at hflush
      · split at htail
        · next hcb =>
          rcases List.mem_cons.mp htail with habs | htail2
          · exact absurd habs (by simp)
          · exact ih [] (by simp) ls htail2
        · next hcb =>
          refine ih [text] ?_ ls htail
          intro s hs
          rcases List.mem_singleton.mp hs with rfl
          omega
    · next hsmall =>
      refine ih (buf ++ [text]) ?_ ls hmem
      intro s hs
      rcases List.mem_append.mp hs with h1 | h2
      · exact hbuf s h1
      · rcases List.mem_singleton.mp h2 with rfl
        have hb0 : 0 ≤ (msgContent buf).length := Nat.zero_le _
        omega

/-- Every queued line whose wrapped length exceeds 2000 is emitted as a
file attachment named log.txt, regardless of the starting buffer. -/
theorem logDiscordGo_file_mem (queue : List String) :
    ∀ buf t, t ∈ queue → 2000 < (codeblock t).length →
      Out.file "log.txt" t ∈ logDiscordGo queue buf := by
  induction queue with
  | nil =>
    intro buf t ht
    exact absurd ht (by simp)
  | cons text rest ih =>
    intro buf t ht hbig
    rcases List.mem_cons.mp ht with rfl | htail
    · unfold logDiscordGo
      rw [if_pos (by omega), if_pos hbig]
      simp
    · unfold logDiscordGo
      split
      · split
        · simp only [List.mem_append, List.mem_cons]
          exact Or.inr (Or.inr (ih [] t htail hbig))
        · simp only [List.mem_append]
          exact Or.inr (ih [text] t htail hbig)
      · exact ih (buf ++ [text]) t htail hbig

/-- When the loop meets an oversized line with a non-empty buffer, it
first flushes the buffer as a message, then sends the line as a file
attachment, then continues with an empty buffer. -/
theorem logDiscordGo_flush_before_file (t : String) (rest buf : List String)
    (hbig : 2000 < (codeblock t).length)
    (hbuf : 0 < (msgContent buf).length) :
    logDiscordGo (t :: rest) buf
      = Out.msg buf :: Out.file "log.txt" t :: logDiscordGo rest [] := by
  conv_lhs => rw [logDiscordGo]
  rw [if_pos (by omega : 2000 < (msgContent buf).length + (codeblock t).length),
    if_pos hbig]
  unfold flushBuf
  rw [if_pos hbuf]
  simp

theorem msgContent_length_replicate (n : Nat) (s : String) :
    (msgContent (List.replicate n s)).length = n * (s.length + 9) := by
  induction n with
  | zero => simp [msgContent]
  | succ k ih =>
    rw [List.replicate_succ]
    have hstep : (msgContent (s :: List.replicate k s)).length
        = (codeblock s).length + (msgContent (List.replicate k s)).length := by
      simp [msgContent, String.length_append]
    rw [hstep, ih, codeblock_length]
    ring

/-- Claim C1: for every sequence of enqueued log lines whose
code-block-wrapped total length exceeds 2000 characters, the forwarding
operation emits messages and attachments such that no text message
content exceeds 2000 characters, and every enqueued line appears exactly
once across the emissions, in the original FIFO order. -/
theorem claim_C1_batch_split (queue : List String)
    (h : 2000 < (msgContent queue).length) :
    (∀ ls, Out.msg ls ∈ log_discord queue → (msgContent ls).length ≤ 2000) ∧
    outLines (log_discord queue) = queue := by
  constructor
  · intro ls hls
    exact logDiscordGo_msg_le queue [] (by simp [msgContent]) ls hls
  · simpa using outLines_logDiscordGo queue []

theorem claim_C1_witness :
    2000 < (msgContent wQueue1).length ∧
      outLines (log_discord wQueue1) = wQueue1 := by
  have h : 2000 < (msgContent wQueue1).length := by
    show 2000 < (msgContent (List.replicate 201 "x")).length
    rw [msgContent_length_replicate]
    have hx : ("x" : String).length = 1 := rfl
    rw [hx]
    norm_num
  exact ⟨h, (claim_C1_batch_split wQueue1 h).2⟩

/-- Claim C2: every single queued log line whose code-block-wrapped
length exceeds 2000 characters is sent as a file attachment named
log.txt and never embedded in an outbound text message; a non-empty
buffer accumulated before it is flushed as a text message first. -/
theorem claim_C2_oversized_line_as_file (queue : List String) (t : String)
    (ht : t ∈ queue) (hbig : 2000 < (codeblock t).length) :
    Out.file "log.txt" t ∈ log_discord queue ∧
    (∀ ls, Out.msg ls ∈ log_discord queue → t ∉ ls) ∧
    (∀ buf rest, 0 < (msgContent buf).length →
      logDiscordGo (t :: rest) buf
        = Out.msg buf :: Out.file "log.txt" t :: logDiscordGo rest []) := by
  refine ⟨logDiscordGo_file_mem queue [] t ht hbig, ?_, ?_⟩
  · intro ls hls hmem
    have := logDiscordGo_msg_lines_small queue [] (by simp) ls hls t hmem
    omega
  · intro buf rest hbuf
    exact logDiscordGo_flush_before_file t rest buf hbig hbuf

theorem bigLine_length : bigLine.length = 1992 := by
  show bigLine.data.length = 1992
  show (List.replicate 1992 'a').length = 1992
  rw [List.length_replicate]

theorem claim_C2_witness :
    bigLine ∈ wQueue2 ∧ 2000 < (codeblock bigLine).length ∧
      Out.file "log.txt" bigLine ∈ log_discord wQueue2 := by
  have hmem : bigLine ∈ wQueue2 := by
    show bigLine ∈ [bigLine]
    exact List.mem_singleton_self _
  have hbig : 2000 < (codeblock bigLine).length := by
    rw [codeblock_length, bigLine_length]
    norm_num
  exact ⟨hmem, hbig, (claim_C2_oversized_line_as_file wQueue2 bigLine hmem hbig).1⟩

theorem enqueueSpawn_queue (s : SinkState) (t : String) :
    (enqueueSpawn s t).queue = s.queue ++ [t] := by
  unfold enqueueSpawn
  split <;> rfl

/-- Claim C3 counterexample: a sink state with two concurrently active
forwarding tasks is reachable, so it is false that at most one
forwarding task is active at every reachable state.  Trace: an emission
into the idle sink spawns a task; that task pops the only queued line
and, while it is still active (sending), a second emission observes the
empty queue and spawns a second task. -/
theorem claim_C3_counterexample :
    ¬ (∀ s : SinkState, SinkReachable s → s.active ≤ 1) := by
  intro hall
  have h0 : SinkReachable (SinkState.mk [] 0) := SinkReachable.init
  have h1 : SinkReachable (SinkState.mk ["a"] 1) :=
    SinkReachable.step h0 (SinkStep.emit (SinkState.mk [] 0) "a")
  have h2 : SinkReachable (SinkState.mk [] 1) :=
    SinkReachable.step h1
      (SinkStep.pop (SinkState.mk ["a"] 1) "a" [] rfl (by norm_num))
  have h3 : SinkReachable (SinkState.mk ["b"] 2) :=
    SinkReachable.step h2 (SinkStep.emit (SinkState.mk [] 1) "b")
  have h4 : (2 : Nat) <= 1 := hall (SinkState.mk ["b"] 2) h3
  omega

/-- Claim C3 (amended): emit spawns a forwarding task exactly when the
pending queue is observed empty before the append (under the lock), and
an emission that observes a non-empty queue appends the line to the
existing batch leaving the number of active forwarding tasks unchanged.
This does not bound the number of active tasks by one: a second task
can be spawned while an earlier one is between draining the queue and
completing. -/
theorem claim_C3_amended (s : SinkState) (t : String) :
    ((enqueueSpawn s t).active = s.active + 1 ↔ s.queue = []) ∧
    (enqueueSpawn s t).queue = s.queue ++ [t] ∧
    (s.queue ≠ [] → (enqueueSpawn s t).active = s.active) := by
  refine ⟨?_, enqueueSpawn_queue s t, ?_⟩
  · cases hq : s.queue with
    | nil =>
      simp [enqueueSpawn, hq]
    | cons a l =>
      constructor
      · intro h
        exfalso
        rw [enqueueSpawn, hq] at h
        simp [List.isEmpty] at h
      · intro h
        exact absurd h (by simp [hq])
  · intro hne
    unfold enqueueSpawn
    rw [if_neg]
    intro hempty
    exact hne (List.isEmpty_iff.mp hempty)

theorem claim_C3_witness :
    (enqueueSpawn (SinkState.mk ["a"] 1) "b").active = 1 :=
  (claim_C3_amended (SinkState.mk ["a"] 1) "b").2.2 (by simp)

/-- Claim C8: a record passed to emit is silently dropped exactly when
it carries the no_discord marker, the event loop is unavailable or
closed, no channel is configured, the configured channel does not parse
as an integer, the client is closed, or the call stack is already
inside log_discord; otherwise its formatted text is appended to the
pending queue. -/
theorem claim_C8_emit_guards (env : EmitEnv) (r : Record) (s : SinkState) :
    (emit env r = EmitResult.dropped ↔
      (r.no_discord = true ∨ env.loop_available = false ∨
        env.loop_closed = true ∨ env.channel = none ∨
        (∃ ch, env.channel = some ch ∧ parseChannel ch = none) ∨
        env.client_closed = true ∨ env.inside_log_discord = true)) ∧
    (emit env r = EmitResult.dropped → emitFull env r s = s) ∧
    (emit env r = EmitResult.enqueued r.text →
      (emitFull env r s).queue = s.queue ++ [r.text]) ∧
    (emit env r ≠ EmitResult.dropped →
      emit env r = EmitResult.enqueued r.text) := by
  obtain ⟨la, lc, ch, cc, il⟩ := env
  obtain ⟨lvl, nd, tx⟩ := r
  rcases ch with _ | ch
  · cases nd <;> cases la <;> cases lc <;> cases cc <;> cases il <;>
      simp [emit, emitFull, enqueueSpawn_queue]
  · rcases hp : parseChannel ch with _ | n <;>
      cases nd <;> cases la <;> cases lc <;> cases cc <;> cases il <;>
      simp [emit, emitFull, enqueueSpawn_queue, hp]

theorem claim_C8_witness :
    emit wEnv wRecord = EmitResult.enqueued "boom" ∧
      (emitFull wEnv wRecord (SinkState.mk [] 0)).queue = [] ++ ["boom"] := by
  have h := claim_C8_emit_guards wEnv wRecord (SinkState.mk [] 0)
  have hne : emit wEnv wRecord ≠ EmitResult.dropped := by decide
  have henq := h.2.2.2 hne
  exact ⟨henq, h.2.2.1 henq⟩

/-- Claim C9: the relay handler is installed with threshold ERROR, so a
record whose severity is below ERROR is never delivered to emit and the
sink state, in particular the pending queue, is untouched. -/
theorem claim_C9_level_threshold (env : EmitEnv) (r : Record)
    (s : SinkState) (h : r.level < ERROR_LEVEL) :
    processRecord env r s = s := by
  have hb : handlerDelivers installedLevel r.level = false := by
    simp only [handlerDelivers, installedLevel, ERROR_LEVEL,
      decide_eq_false_iff_not]
    unfold ERROR_LEVEL at h
    omega
  simp [processRecord, hb]

theorem claim_C9_witness :
    30 < ERROR_LEVEL ∧
      processRecord wEnv (Record.mk 30 false "warn") (SinkState.mk [] 0)
        = SinkState.mk [] 0 :=
  ⟨by decide,
    claim_C9_level_threshold wEnv (Record.mk 30 false "warn")
      (SinkState.mk [] 0) (by decide)⟩

theorem truthy_of_mem_getD {o : Option (List Nat)} {x : Nat}
    (h : x ∈ o.getD []) : truthy o = true := by
  cases o with
  | none => simp at h
  | some l =>
    cases l with
    | nil => simp at h
    | cons b bs => rfl

theorem has_privilege_eq (c : Conf) (p : String) (a : Actor) :
    has_privilege c p a
      = ((truthy (c.users p) && ((c.users p).getD []).contains a.id)
        || (truthy (c.roles p) && a.isMember
            && a.memberRoles.any fun r => ((c.roles p).getD []).contains r)) := by
  by_cases h1 : (truthy (c.users p)
      && ((c.users p).getD []).contains a.id) = true
  · simp [has_privilege, h1]
  · rw [Bool.not_eq_true] at h1
    by_cases h2 : (truthy (c.roles p) && a.isMember) = true
    · simp [has_privilege, h1, h2]
    · rw [Bool.not_eq_true] at h2
      simp [has_privilege, h1, h2]

/-- Claim C4: has_privilege returns true iff the actor id is in the
stored user list, or the actor has role context (is a guild member) and
some of its roles is in the stored role list; it returns false in all
other cases, in particular when both entries are unset (the privilege
set does not exist) and for a direct-message actor the role check is
skipped. -/
theorem claim_C4_has_privilege (c : Conf) (p : String) (a : Actor) :
    (has_privilege c p a = true ↔
      (a.id ∈ (c.users p).getD [] ∨
        (a.isMember = true ∧ ∃ r ∈ a.memberRoles, r ∈ (c.roles p).getD []))) ∧
    (c.users p = none → c.roles p = none → has_privilege c p a = false) := by
  constructor
  · rw [has_privilege_eq]
    simp only [Bool.or_eq_true, Bool.and_eq_true, List.any_eq_true,
      List.contains, List.elem_eq_mem, decide_eq_true_eq]
    constructor
    · rintro (⟨ht, hm⟩ | ⟨⟨ht, him⟩, r, hr1, hr2⟩)
      · exact Or.inl hm
      · exact Or.inr ⟨him, r, hr1, hr2⟩
    · rintro (hm | ⟨him, r, hr1, hr2⟩)
      · exact Or.inl ⟨truthy_of_mem_getD hm, hm⟩
      · exact Or.inr ⟨⟨truthy_of_mem_getD hr2, him⟩, r, hr1, hr2⟩
  · intro hu hr
    rw [has_privilege_eq, hu, hr]
    simp [truthy]

theorem claim_C4_witness :
    has_privilege wConf4 "mods" (Actor.member 7 [9]) = true :=
  (claim_C4_has_privilege wConf4 "mods" (Actor.member 7 [9])).1.mpr
    (Or.inr ⟨rfl, 9, by decide, by decide⟩)

theorem priv_add_user_spec (c : Conf) (p : String) (i : Nat) :
    ((priv_add_user c p i).1 = none ↔
      priv_exists c p = true ∧ i ∉ pyOrEmpty (c.users p)) ∧
    ((priv_add_user c p i).1 ≠ none → (priv_add_user c p i).2 = c) ∧
    ((priv_add_user c p i).1 = none →
      ((priv_add_user c p i).2).users p
        = some (pyOrEmpty (c.users p) ++ [i]) ∧
      ((priv_add_user c p i).2).roles = c.roles ∧
      (∀ q, q ≠ p → ((priv_add_user c p i).2).users q = c.users q) ∧
      ((pyOrEmpty (c.users p)).Nodup → (pyOrEmpty (c.users p) ++ [i]).Nodup)) := by
  by_cases he : priv_exists c p = true
  · have hv : validate_priv c p = none := by simp [validate_priv, he]
    by_cases hm : i ∈ pyOrEmpty (c.users p)
    · have hval : priv_add_user c p i
          = (some (PrivError.userAlreadyIn i p), c) := by
        simp [priv_add_user, hv, hm]
      rw [hval]
      simp [he, hm]
    · have hval : priv_add_user c p i
          = (none, setUsers c p (some (pyOrEmpty (c.users p) ++ [i]))) := by
        simp [priv_add_user, hv, hm]
      rw [hval]
      refine ⟨by simp [he, hm], by simp, ?_⟩
      intro _
      refine ⟨by simp [setUsers, updateFn], rfl, ?_, ?_⟩
      · intro q hq
        simp [setUsers, updateFn, hq]
      · intro hnd
        rw [← List.concat_eq_append]
        exact List.Nodup.concat hm hnd
  · have he2 : priv_exists c p = false := by
      rw [Bool.not_eq_true] at he
      exact he
    have hv : validate_priv c p = some (PrivError.doesNotExist p) := by
      simp [validate_priv, he2]
    have hval : priv_add_user c p i = (some (PrivError.doesNotExist p), c) := by
      simp [priv_add_user, hv]
    rw [hval]
    simp [he2]

theorem priv_add_role_spec (c : Conf) (p : String) (i : Nat) :
    ((priv_add_role c p i).1 = none ↔
      priv_exists c p = true ∧ i ∉ pyOrEmpty (c.roles p)) ∧
    ((priv_add_role c p i).1 ≠ none → (priv_add_role c p i).2 = c) ∧
    ((priv_add_role c p i).1 = none →
      ((priv_add_role c p i).2).roles p
        = some (pyOrEmpty (c.roles p) ++ [i]) ∧
      ((priv_add_role c p i).2).users = c.users ∧
      (∀ q, q ≠ p → ((priv_add_role c p i).2).roles q = c.roles q) ∧
      ((pyOrEmpty (c.roles p)).Nodup → (pyOrEmpty (c.roles p) ++ [i]).Nodup)) := by
  by_cases he : priv_exists c p = true
  · have hv : validate_priv c p = none := by simp [validate_priv, he]
    by_cases hm : i ∈ pyOrEmpty (c.roles p)
    · have hval : priv_add_role c p i
          = (some (PrivError.roleAlreadyIn i p), c) := by
        simp [priv_add_role, hv, hm]
      rw [hval]
      simp [he, hm]
    · have hval : priv_add_role c p i
          = (none, setRoles c p (some (pyOrEmpty (c.roles p) ++ [i]))) := by
        simp [priv_add_role, hv, hm]
      rw [hval]
      refine ⟨by simp [he, hm], by simp, ?_⟩
      intro _
      refine ⟨by simp [setRoles, updateFn], rfl, ?_, ?_⟩
      · intro q hq
        simp [setRoles, updateFn, hq]
      · intro hnd
        rw [← List.concat_eq_append]
        exact List.Nodup.concat hm hnd
  · have he2 : priv_exists c p = false := by
      rw [Bool.not_eq_true] at he
      exact he
    have hv : validate_priv c p = some (PrivError.doesNotExist p) := by
      simp [validate_priv, he2]
    have hval : priv_add_role c p i = (some (PrivError.doesNotExist p), c) := by
      simp [priv_add_role, hv]
    rw [hval]
    simp [he2]

theorem priv_remove_user_spec (c : Conf) (p : String) (i : Nat) :
    ((priv_remove_user c p i).1 = none ↔
      priv_exists c p = true ∧ i ∈ pyOrEmpty (c.users p)) ∧
    ((priv_remove_user c p i).1 ≠ none → (priv_remove_user c p i).2 = c) ∧
    ((priv_remove_user c p i).1 = none →
      ((priv_remove_user c p i).2).users p
        = some ((pyOrEmpty (c.users p)).erase i) ∧
      ((priv_remove_user c p i).2).roles = c.roles ∧
      (∀ q, q ≠ p → ((priv_remove_user c p i).2).users q = c.users q)) := by
  by_cases he : priv_exists c p = true
  · have hv : validate_priv c p = none := by simp [validate_priv, he]
    by_cases hm : i ∈ pyOrEmpty (c.users p)
    · have hval : priv_remove_user c p i
          = (none, setUsers c p (some ((pyOrEmpty (c.users p)).erase i))) := by
        simp [priv_remove_user, hv, hm]
      rw [hval]
      refine ⟨by simp [he, hm], by simp, ?_⟩
      intro _
      refine ⟨by simp [setUsers, updateFn], rfl, ?_⟩
      intro q hq
      simp [setUsers, updateFn, hq]
    · have hval : priv_remove_user c p i
          = (some (PrivError.userNotIn i p), c) := by
        simp [priv_remove_user, hv, hm]
      rw [hval]
      simp [he, hm]
  · have he2 : priv_exists c p = false := by
      rw [Bool.not_eq_true] at he
      exact he
    have hv : validate_priv c p = some (PrivError.doesNotExist p) := by
      simp [validate_priv, he2]
    have hval : priv_remove_user c p i
        = (some (PrivError.doesNotExist p), c) := by
      simp [priv_remove_user, hv]
    rw [hval]
    simp [he2]

theorem priv_remove_role_spec (c : Conf) (p : String) (i : Nat) :
    ((priv_remove_role c p i).1 = none ↔
      priv_exists c p = true ∧ i ∈ pyOrEmpty (c.roles p)) ∧
    ((priv_remove_role c p i).1 ≠ none → (priv_remove_role c p i).2 = c) ∧
    ((priv_remove_role c p i).1 = none →
      ((priv_remove_role c p i).2).roles p
        = some ((pyOrEmpty (c.roles p)).erase i) ∧
      ((priv_remove_role c p i).2).users = c.users ∧
      (∀ q, q ≠ p → ((priv_remove_role c p i).2).roles q = c.roles q)) := by
  by_cases he : priv_exists c p = true
  · have hv : validate_priv c p = none := by simp [validate_priv, he]
    by_cases hm : i ∈ pyOrEmpty (c.roles p)
    · have hval : priv_remove_role c p i
          = (none, setRoles c p (some ((pyOrEmpty (c.roles p)).erase i))) := by
        simp [priv_remove_role, hv, hm]
      rw [hval]
      refine ⟨by simp [he, hm], by simp, ?_⟩
      intro _
      refine ⟨by simp [setRoles, updateFn], rfl, ?_⟩
      intro q hq
      simp [setRoles, updateFn, hq]
    · have hval : priv_remove_role c p i
          = (some (PrivError.roleNotIn i p), c) := by
        simp [priv_remove_role, hv, hm]
      rw [hval]
      simp [he, hm]
  · have he2 : priv_exists c p = false := by
      rw [Bool.not_eq_true] at he
      exact he
    have hv : validate_priv c p = some (PrivError.doesNotExist p) := by
      simp [validate_priv, he2]
    have hval : priv_remove_role c p i
        = (some (PrivError.doesNotExist p), c) := by
      simp [priv_remove_role, hv]
    rw [hval]
    simp [he2]

/-- Claim C6: add_user and add_role fail when the set does not exist or
the id is already present, and otherwise append the id at the end,
preserving insertion order and uniqueness; remove_user and remove_role
fail when the set does not exist or the id is absent, and otherwise
remove it; every failure leaves the stored configuration unchanged. -/
theorem claim_C6_membership_ops (c : Conf) (p : String) (i : Nat) :
    ((priv_add_user c p i).1 = none ↔
      priv_exists c p = true ∧ i ∉ pyOrEmpty (c.users p)) ∧
    ((priv_add_user c p i).1 ≠ none → (priv_add_user c p i).2 = c) ∧
    ((priv_add_user c p i).1 = none →
      ((priv_add_user c p i).2).users p
        = some (pyOrEmpty (c.users p) ++ [i]) ∧
      ((priv_add_user c p i).2).roles = c.roles ∧
      (∀ q, q ≠ p → ((priv_add_user c p i).2).users q = c.users q) ∧
      ((pyOrEmpty (c.users p)).Nodup →
        (pyOrEmpty (c.users p) ++ [i]).Nodup)) ∧
    ((priv_add_role c p i).1 = none ↔
      priv_exists c p = true ∧ i ∉ pyOrEmpty (c.roles p)) ∧
    ((priv_add_role c p i).1 ≠ none → (priv_add_role c p i).2 = c) ∧
    ((priv_add_role c p i).1 = none →
      ((priv_add_role c p i).2).roles p
        = some (pyOrEmpty (c.roles p) ++ [i]) ∧
      ((priv_add_role c p i).2).users = c.users ∧
      (∀ q, q ≠ p → ((priv_add_role c p i).2).roles q = c.roles q) ∧
      ((pyOrEmpty (c.roles p)).Nodup →
        (pyOrEmpty (c.roles p) ++ [i]).Nodup)) ∧
    ((priv_remove_user c p i).1 = none ↔
      priv_exists c p = true ∧ i ∈ pyOrEmpty (c.users p)) ∧
    ((priv_remove_user c p i).1 ≠ none → (priv_remove_user c p i).2 = c) ∧
    ((priv_remove_user c p i).1 = none →
      ((priv_remove_user c p i).2).users p
        = some ((pyOrEmpty (c.users p)).erase i) ∧
      ((priv_remove_user c p i).2).roles = c.roles ∧
      (∀ q, q ≠ p → ((priv_remove_user c p i).2).users q = c.users q)) ∧
    ((priv_remove_role c p i).1 = none ↔
      priv_exists c p = true ∧ i ∈ pyOrEmpty (c.roles p)) ∧
    ((priv_remove_role c p i).1 ≠ none → (priv_remove_role c p i).2 = c) ∧
    ((priv_remove_role c p i).1 = none →
      ((priv_remove_role c p i).2).roles p
        = some ((pyOrEmpty (c.roles p)).erase i) ∧
      ((priv_remove_role c p i).2).users = c.users ∧
      (∀ q, q ≠ p → ((priv_remove_role c p i).2).roles q = c.roles q)) := by
  obtain ⟨a1, a2, a3⟩ := priv_add_user_spec c p i
  obtain ⟨b1, b2, b3⟩ := priv_add_role_spec c p i
  obtain ⟨d1, d2, d3⟩ := priv_remove_user_spec c p i
  obtain ⟨e1, e2, e3⟩ := priv_remove_role_spec c p i
  exact ⟨a1, a2, a3, b1, b2, b3, d1, d2, d3, e1, e2, e3⟩

theorem claim_C6_witness :
    ((priv_add_user wConf6 "a" 2).2).users "a"
        = some (pyOrEmpty (wConf6.users "a") ++ [2]) ∧
      (priv_remove_user wConf6 "a" 3).2 = wConf6 := by
  have hA := claim_C6_membership_ops wConf6 "a" 2
  have hB := claim_C6_membership_ops wConf6 "a" 3
  exact ⟨(hA.2.2.1 (by decide)).1, hB.2.2.2.2.2.2.2.1 (by decide)⟩

/-- Claim C7: create fails iff a set with the name already exists
(either stored entry non-null) and otherwise initializes both entries
to the empty list, so that showing the fresh set lists no members;
delete fails iff the set does not exist and otherwise unsets both
entries, after which every membership or show or delete operation on
the name fails as does-not-exist. -/
theorem claim_C7_create_delete (c : Conf) (p : String) :
    ((priv_new c p).1 = none ↔ priv_exists c p = false) ∧
    ((priv_new c p).1 ≠ none → (priv_new c p).2 = c) ∧
    ((priv_new c p).1 = none →
      ((priv_new c p).2).users p = some [] ∧
      ((priv_new c p).2).roles p = some [] ∧
      priv_show ((priv_new c p).2) p = (none, [])) ∧
    ((priv_delete c p).1 = none ↔ priv_exists c p = true) ∧
    ((priv_delete c p).1 ≠ none → (priv_delete c p).2 = c) ∧
    ((priv_delete c p).1 = none →
      ((priv_delete c p).2).users p = none ∧
      ((priv_delete c p).2).roles p = none ∧
      (∀ i : Nat,
        (priv_show ((priv_delete c p).2) p).1
          = some (PrivError.doesNotExist p) ∧
        (priv_delete ((priv_delete c p).2) p).1
          = some (PrivError.doesNotExist p) ∧
        (priv_add_user ((priv_delete c p).2) p i).1
          = some (PrivError.doesNotExist p) ∧
        (priv_add_role ((priv_delete c p).2) p i).1
          = some (PrivError.doesNotExist p) ∧
        (priv_remove_user ((priv_delete c p).2) p i).1
          = some (PrivError.doesNotExist p) ∧
        (priv_remove_role ((priv_delete c p).2) p i).1
          = some (PrivError.doesNotExist p))) := by
  by_cases he : priv_exists c p = true
  · have hv : validate_priv c p = none := by simp [validate_priv, he]
    have hnew : priv_new c p = (some (PrivError.alreadyExists p), c) := by
      simp [priv_new, he]
    have hdel : priv_delete c p
        = (none, setRoles (setUsers c p none) p none) := by
      simp [priv_delete, hv]
    rw [hnew, hdel]
    have hu2 : (setRoles (setUsers c p none) p none).users p = none := by
      simp [setRoles, setUsers, updateFn]
    have hr2 : (setRoles (setUsers c p none) p none).roles p = none := by
      simp [setRoles, setUsers, updateFn]
    have hex2 : priv_exists (setRoles (setUsers c p none) p none) p = false := by
      simp [priv_exists, hu2, hr2]
    have hv2 : validate_priv (setRoles (setUsers c p none) p none) p
        = some (PrivError.doesNotExist p) := by
      simp [validate_priv, hex2]
    refine ⟨by simp [he], by simp, by simp, by simp [he], by simp, ?_⟩
    intro _
    refine ⟨hu2, hr2, ?_⟩
    intro i
    exact ⟨by simp [priv_show, hv2], by simp [priv_delete, hv2],
      by simp [priv_add_user, hv2], by simp [priv_add_role, hv2],
      by simp [priv_remove_user, hv2], by simp [priv_remove_role, hv2]⟩
  · have he2 : priv_exists c p = false := by
      rw [Bool.not_eq_true] at he
      exact he
    have hv : validate_priv c p = some (PrivError.doesNotExist p) := by
      simp [validate_priv, he2]
    have hnew : priv_new c p
        = (none, setRoles (setUsers c p (some [])) p (some [])) := by
      simp [priv_new, he2]
    have hdel : priv_delete c p = (some (PrivError.doesNotExist p), c) := by
      simp [priv_delete, hv]
    rw [hnew, hdel]
    have hu2 : (setRoles (setUsers c p (some [])) p (some [])).users p
        = some [] := by
      simp [setRoles, setUsers, updateFn]
    have hr2 : (setRoles (setUsers c p (some [])) p (some [])).roles p
        = some [] := by
      simp [setRoles, setUsers, updateFn]
    have hex2 : priv_exists (setRoles (setUsers c p (some [])) p (some [])) p
        = true := by
      simp [priv_exists, hu2]
    have hv2 : validate_priv (setRoles (setUsers c p (some [])) p (some [])) p
        = none := by
      simp [validate_priv, hex2]
    refine ⟨by simp [he2], by simp, ?_, by simp [he2], by simp, by simp⟩
    intro _
    exact ⟨hu2, hr2, by simp [priv_show, hv2, hu2, hr2, pyOrEmpty]⟩

theorem claim_C7_witness :
    priv_show ((priv_new wConf7 "a").2) "a" = (none, []) ∧
      (priv_add_user ((priv_delete wConf6 "a").2) "a" 5).1
        = some (PrivError.doesNotExist "a") := by
  have hA := claim_C7_create_delete wConf7 "a"
  have hB := claim_C7_create_delete wConf6 "a"
  exact ⟨(hA.2.2.1 (by decide)).2.2,
    ((hB.2.2.2.2.2 (by decide)).2.2 5).2.2.1⟩

/-- Claim C10: for a privilege set that exists because exactly one of
its two entries is non-null, add on the unset list treats it as empty
and succeeds with a one-element list, while remove on the unset list
fails as not-in-priv (absent member) rather than as a missing set. -/
theorem claim_C10_unset_list (c : Conf) (p : String) (i : Nat) :
    (c.users p = none → priv_exists c p = true →
      (priv_add_user c p i).1 = none ∧
      ((priv_add_user c p i).2).users p = some [i] ∧
      (priv_remove_user c p i).1 = some (PrivError.userNotIn i p) ∧
      (priv_remove_user c p i).2 = c) ∧
    (c.roles p = none → priv_exists c p = true →
      (priv_add_role c p i).1 = none ∧
      ((priv_add_role c p i).2).roles p = some [i] ∧
      (priv_remove_role c p i).1 = some (PrivError.roleNotIn i p) ∧
      (priv_remove_role c p i).2 = c) := by
  constructor
  · intro hu he
    have hv : validate_priv c p = none := by simp [validate_priv, he]
    have hpy : pyOrEmpty (c.users p) = [] := by simp [hu, pyOrEmpty]
    refine ⟨?_, ?_, ?_, ?_⟩ <;>
      simp [priv_add_user, priv_remove_user, hv, hpy, setUsers, updateFn]
  · intro hr he
    have hv : validate_priv c p = none := by simp [validate_priv, he]
    have hpy : pyOrEmpty (c.roles p) = [] := by simp [hr, pyOrEmpty]
    refine ⟨?_, ?_, ?_, ?_⟩ <;>
      simp [priv_add_role, priv_remove_role, hv, hpy, setRoles, updateFn]

theorem claim_C10_witness :
    ((priv_add_user wConf10u "a" 7).1 = none ∧
      (priv_remove_user wConf10u "a" 7).1
        = some (PrivError.userNotIn 7 "a")) ∧
    ((priv_add_role wConf10r "a" 7).1 = none ∧
      (priv_remove_role wConf10r "a" 7).1
        = some (PrivError.roleNotIn 7 "a")) := by
  have hA := (claim_C10_unset_list wConf10u "a" 7).1 (by decide) (by decide)
  have hB := (claim_C10_unset_list wConf10r "a" 7).2 (by decide) (by decide)
  exact ⟨⟨hA.1, hA.2.2.1⟩, ⟨hB.1, hB.2.2.1⟩⟩

/-- Claim C5 (code bug): in the source, restart() performs the
assignment to will_restart without a global declaration, so the host
language binds a function-local variable and the module-level flag
stays False; consequently the exit-time hook observes an unset flag and
never attempts the re-execution (it neither re-executes nor logs a
critical failure).  The hook additionally reads a nonexistent
interpreter attribute of the sys module where the intent was the
executable path. -/
theorem claim_C5_restart_flag_bug :
    (restart initialRestartState).will_restart = false ∧
      atexit_restart_maybe (restart initialRestartState) true
        = ExitAction.noop ∧
      atexit_restart_maybe (restart initialRestartState) false
        = ExitAction.noop := by
  decide
